import Mathlib

/-!
Verification development for the BOKJIRO_AI welfare chatbot's multi-stage
retrieval orchestrator (`app/chatbot.py` and `app/db_service.py`).

The Python source is shallowly embedded as executable Lean definitions.
External collaborators are parameters:
* the fuzzy scorer `thefuzz.fuzz.partial_ratio` is a parameter
  `pr : String → String → Nat`;
* the LLM search planner is a parameter
  `planner : String → Option PlanResult` (`none` models an invocation
  error or unparsable output, i.e. the `except` branch of
  `_generate_search_plan`);
* Python's `json.loads` is a parameter `parse : String → Option PyVal`
  (`none` models a `JSONDecodeError`/`TypeError`).

Records are `Document`s with a `page_content` string and a string-valued
metadata dictionary, modelled as an association list with distinct keys
in insertion order (Python `dict`).
-/

/-- Python `s.replace(" ", "")`: removes every ASCII space character. -/
def stripSpaces (s : String) : String :=
  String.mk (s.toList.filter (fun c => c != ' '))

/-- Python `\s` / `str.strip` whitespace class (ASCII part; the Korean data
never exercises the non-ASCII Unicode whitespace characters). -/
def isPySpace (c : Char) : Bool :=
  c == ' ' || c == '\t' || c == '\n' || c == '\r' || c == '\x0b' || c == '\x0c'

/-- Python `s.strip()`: drops leading and trailing whitespace. -/
def pyStrip (s : String) : String :=
  String.mk (((s.toList.dropWhile isPySpace).reverse.dropWhile isPySpace).reverse)

/-- Python `v.startswith(p)`. -/
def strStarts (p s : String) : Bool :=
  p.toList.isPrefixOf s.toList

/-- Does `s` contain `pat` as a contiguous subsequence (Python `pat in s`)?
The empty pattern is contained in every list, as in Python. -/
def listHasSub (s pat : List Char) : Bool :=
  match s with
  | [] => pat.isEmpty
  | _ :: xs => pat.isPrefixOf s || listHasSub xs pat

/-- Python substring test `pat in s`. -/
def strHasSub (s pat : String) : Bool :=
  listHasSub s.toList pat.toList

/-- One catalog record fragment (a LangChain `Document`): `page_content`
plus a metadata dictionary, modelled with string values. -/
structure Document where
  page_content : String
  metadata : List (String × String)
deriving DecidableEq

/-- Python `doc.metadata.get(key)`. -/
def metaGet (d : Document) (k : String) : Option String :=
  (d.metadata.find? (fun kv => kv.1 == k)).map (fun kv => kv.2)

/-- `DBService.metadata_search` (`app/db_service.py:205-222`): keeps every
document with truthy metadata all of whose filter entries are present and
satisfy `str(metadata_value).startswith(str(value))`. -/
def metadata_search (allDocs : List Document) (filt : List (String × String)) : List Document :=
  allDocs.filter (fun d =>
    !d.metadata.isEmpty &&
    filt.all (fun kv =>
      match metaGet d kv.1 with
      | none => false
      | some v => strStarts kv.2 v))

/-- The exact-pass condition of `_detect_fast_track_keyword`
(`app/chatbot.py:63-70`): a non-empty service name whose space-normalized
form occurs in the space-normalized message and has length above 2. -/
def exactQualify (msg n : String) : Bool :=
  !(n == "") &&
    (strHasSub (stripSpaces msg) (stripSpaces n) &&
      decide ((stripSpaces n).toList.length > 2))

/-- The fuzzy pass of `_detect_fast_track_keyword` (`app/chatbot.py:72-84`):
score every non-empty name, take the first name attaining the maximal
score (Python `max` over the insertion-ordered dict), accept at `≥ 80`. -/
def fuzzyPass (pr : String → String → Nat) (names : List String) (nm : String) : Option String :=
  match names.filter (fun n => !(n == "")) with
  | [] => none
  | n0 :: rest =>
    let best := rest.foldl (fun b n =>
      if pr nm (stripSpaces n) > pr nm (stripSpaces b) then n else b) n0
    if pr nm (stripSpaces best) ≥ 80 then some best else none

/-- `_detect_fast_track_keyword` (`app/chatbot.py:54-84`): exact pass first
(first qualifying name in list order), then the fuzzy pass. -/
def detect_fast_track_keyword (pr : String → String → Nat) (names : List String)
    (msg : String) : Option String :=
  if names.isEmpty then none
  else
    match names.find? (exactQualify msg) with
    | some n => some n
    | none => fuzzyPass pr names (stripSpaces msg)

/-- Case-insensitive character comparison (`re.IGNORECASE`; ASCII folding,
which is what matters for the Korean data). -/
def charIEq (a b : Char) : Bool :=
  a.toLower == b.toLower

/-- Backtracking matcher for the dynamically built pattern
`c₁\s*c₂\s*…cₙ\s*` of `_get_intelligent_response`
(`app/chatbot.py:252-254`).  `wsMode` is true while the current `\s*` atom
is being consumed (greedily, giving characters back on failure).  The fuel
only bounds the recursion; `reFuel` below always exceeds the call depth. -/
def reMatch : Nat → List Char → Bool → List Char → Option (List Char)
  | 0, _, _, _ => none
  | fuel + 1, pat, true, s =>
    match s with
    | [] => reMatch fuel pat false []
    | x :: xs =>
      if isPySpace x then
        match reMatch fuel pat true xs with
        | some r => some r
        | none => reMatch fuel pat false (x :: xs)
      else reMatch fuel pat false (x :: xs)
  | fuel + 1, pat, false, s =>
    match pat with
    | [] => some s
    | c :: cs =>
      match s with
      | [] => none
      | x :: xs => if charIEq x c then reMatch fuel cs true xs else none

/-- Fuel that strictly dominates the depth of `reMatch`'s recursion. -/
def reFuel (pat s : List Char) : Nat :=
  2 * s.length + 2 * pat.length + 4

/-- `re.sub(pattern, '', text, count=1)`: remove the leftmost match of the
built pattern, or return the text unchanged when there is no match. -/
def reSubOnce (pat : List Char) : List Char → List Char
  | [] =>
    (match reMatch (reFuel pat []) pat false [] with
     | some r => r
     | none => [])
  | x :: xs =>
    match reMatch (reFuel pat (x :: xs)) pat false (x :: xs) with
    | some r => r
    | none => x :: reSubOnce pat xs

/-- The query-reduction step of `_get_intelligent_response`
(`app/chatbot.py:252-254`): strip spaces from the detected name, remove its
first whitespace-tolerant occurrence, then `strip()` the result. -/
def reduceQuery (name q : String) : String :=
  pyStrip (String.mk (reSubOnce (stripSpaces name).toList q.toList))

/-- The sequential fast-track loop of `_get_intelligent_response`
(`app/chatbot.py:239-261`), with explicit fuel.  Each successful reduction
strictly shortens the query, so fuel `|q| + 1` never runs out. -/
def fastTrackLoop (pr : String → String → Nat) (allDocs : List Document)
    (names : List String) : Nat → String → List Document → List Document × String
  | 0, q, acc => (acc, q)
  | fuel + 1, q, acc =>
    if q == "" then (acc, q)
    else
      match detect_fast_track_keyword pr names q with
      | none => (acc, q)
      | some name =>
        let found := metadata_search allDocs [("사업명", name)]
        let acc2 := acc ++ found
        let q2 := reduceQuery name q
        if q2 == q then (acc2, q)
        else fastTrackLoop pr allDocs names fuel q2 acc2

/-- One step of the LLM-authored search plan, after the dictionary reads of
`app/chatbot.py:277-280` (`base_condition`, `keywords`,
`filters["중분류"]`, each defaulting to empty). -/
structure PlanStep where
  base_condition : List String
  keywords : List String
  middle_categories : List String
deriving DecidableEq

/-- The parsed planner output as consumed by the pipeline: only the
`search_plan` key is read (`none` models an absent key). -/
structure PlanResult where
  intent : String
  search_plan : Option (List PlanStep)
deriving DecidableEq

/-- The recovery value of `_generate_search_plan`'s `except` branch
(`app/chatbot.py:225-227`): its dictionary has no `search_plan` key (the
`semantic_keywords` / `metadata_filters` entries are never read). -/
def degeneratePlan : PlanResult :=
  { intent := "분석 실패", search_plan := none }

/-- `_generate_search_plan` (`app/chatbot.py:218-227`): the planner's
answer when the invocation succeeds, the degenerate dictionary otherwise. -/
def generate_search_plan (planner : String → Option PlanResult) (q : String) : PlanResult :=
  match planner q with
  | some r => r
  | none => degeneratePlan

/-- Stage A of one plan step (`app/chatbot.py:290-292`): concatenate the
`metadata_search` results of each listed middle category. -/
def stageADocs (allDocs : List Document) (step : PlanStep) : List Document :=
  step.middle_categories.foldl (fun acc c => acc ++ metadata_search allDocs [("중분류", c)]) []

/-- The audience test of Stage B (`app/chatbot.py:305-307`): some
`base_condition` token, space-stripped, occurs in the space-stripped
`대상` metadata (missing `대상` reads as the empty string). -/
def audienceKeep (step : PlanStep) (d : Document) : Bool :=
  step.base_condition.any (fun bc =>
    strHasSub (stripSpaces ((metaGet d "대상").getD "")) (stripSpaces bc))

/-- One plan step of the multi-stage filter (`app/chatbot.py:274-314`):
skip on empty category filters, skip on empty Stage-A results, otherwise
apply the audience filter unless `base_condition` is empty. -/
def runStep (allDocs : List Document) (step : PlanStep) : List Document :=
  if step.middle_categories.isEmpty then []
  else
    let category_docs := stageADocs allDocs step
    if category_docs.isEmpty then []
    else if step.base_condition.isEmpty then category_docs
    else category_docs.filter (audienceKeep step)

/-- Execute the plan steps in list order, concatenating each step's
surviving documents (`app/chatbot.py:272-314`). -/
def runPlan (allDocs : List Document) (steps : List PlanStep) : List Document :=
  steps.foldl (fun acc s => acc ++ runStep allDocs s) []

/-- How one turn ends: a synthesized answer over the final batch, the
overview-based fallback answer, or the fixed apology string
(`app/chatbot.py:333-347`). -/
inductive Outcome where
  | finalAnswer (docs : List Document)
  | fallbackOverview (docs : List Document)
  | apology
deriving DecidableEq

/-- The local variables of one `_get_intelligent_response` run. -/
structure PipelineResult where
  fastDocs : List Document
  intelligentDocs : List Document
  crisisDocs : List Document
  finalDocs : List Document
  outcome : Outcome
deriving DecidableEq

/-- The fixed crisis-chapter filter (`app/chatbot.py:322-324`). -/
def crisisFilter : List (String × String) :=
  [("대분류", "10장. 기타 위기별 상황별 지원")]

/-- The fixed sentinel lookup of the fallback tier (`app/chatbot.py:337-340`). -/
def fallbackFilter : List (String × String) :=
  [("사업명", "책 안에 어떤 내용이 담겨 있나요?"), ("항목", "sections")]

/-- `_get_intelligent_response` (`app/chatbot.py:230-347`): fast-track
loop, plan-driven intelligent search over the remaining query, crisis
augmentation, aggregation, and the fallback tiers. -/
def get_intelligent_response (pr : String → String → Nat)
    (planner : String → Option PlanResult) (allDocs : List Document)
    (names : List String) (userMessage : String) : PipelineResult :=
  let q0 := pyStrip userMessage
  let ft := fastTrackLoop pr allDocs names (q0.toList.length + 1) q0 []
  let fastDocs := ft.1
  let remaining := ft.2
  let intelligentDocs :=
    if remaining == "" then []
    else runPlan allDocs ((generate_search_plan planner remaining).search_plan.getD [])
  let crisisDocs := metadata_search allDocs crisisFilter
  let finalDocs := fastDocs ++ intelligentDocs ++ crisisDocs
  let outcome :=
    if finalDocs.isEmpty then
      let fallbackDocs := metadata_search allDocs fallbackFilter
      if fallbackDocs.isEmpty then Outcome.apology
      else Outcome.fallbackOverview fallbackDocs
    else Outcome.finalAnswer finalDocs
  { fastDocs := fastDocs, intelligentDocs := intelligentDocs,
    crisisDocs := crisisDocs, finalDocs := finalDocs, outcome := outcome }

/-- The deduplication key of `_merge_and_deduplicate`
(`app/chatbot.py:95`): `(doc.page_content, doc.metadata.get('사업명'))`. -/
def docKey (d : Document) : String × Option String :=
  (d.page_content, metaGet d "사업명")

/-- One Python-dict insertion of `_merge_and_deduplicate`'s loop
(`app/chatbot.py:93-97`): append the pair only when the key is absent. -/
def pyDictInsert (m : List ((String × Option String) × Document)) (d : Document) :
    List ((String × Option String) × Document) :=
  if m.any (fun kv => decide (kv.1 = docKey d)) then m else m ++ [(docKey d, d)]

/-- `_merge_and_deduplicate` (`app/chatbot.py:86-101`): fill an
insertion-ordered dictionary keyed by `docKey`, then take its values. -/
def merge_and_deduplicate (docs1 docs2 : List Document) : List Document :=
  ((docs1 ++ docs2).foldl pyDictInsert []).map (fun kv => kv.2)

/-- Specification counterpart of the claim text: keep the first occurrence
of each distinct `docKey`, preserving first-seen order. -/
def dedupSpecFirstOccurrence : List Document → List Document
  | [] => []
  | d :: rest =>
    d :: dedupSpecFirstOccurrence (rest.filter (fun x => decide (docKey x ≠ docKey d)))
termination_by l => l.length
decreasing_by
  exact Nat.lt_succ_of_le (List.length_filter_le _ _)

/-- A Python value as produced by `json.loads`: strings, dictionaries,
arrays, or any other scalar carrying its `str()` form and truthiness. -/
inductive PyVal where
  | str (s : String)
  | dict (fields : List (String × PyVal))
  | list (items : List PyVal)
  | other (repr : String) (truthy : Bool)

/-- Python truthiness of a `PyVal` (`if not data: …`). -/
def pyFalsy : PyVal → Bool
  | .str s => s == ""
  | .dict fields => fields.isEmpty
  | .list items => items.isEmpty
  | .other _ t => !t

/-- The `"  " * indent_level` indentation of `_format_content`. -/
def indentStr (n : Nat) : String :=
  String.join (List.replicate n "  ")

mutual

/-- `_format_content` (`app/chatbot.py:349-370`): recursive rendering of a
parsed `page_content` value. -/
def format_content : PyVal → Nat → String
  | data, lvl =>
    if pyFalsy data then ""
    else
      match data with
      | .dict fields => String.intercalate "\n" ((formatDict fields lvl).filter (fun p => !(p == "")))
      | .list items => String.intercalate "\n" ((formatList items lvl).filter (fun p => !(p == "")))
      | .str s =>
        let c := pyStrip s
        if c == "" then "" else indentStr lvl ++ "- " ++ c
      | .other r _ =>
        let c := pyStrip r
        if c == "" then "" else indentStr lvl ++ "- " ++ c

/-- The dictionary branch of `_format_content`: string values render as a
labelled bullet when truthy after stripping; nested dictionaries and lists
render as a label line plus their recursive rendering; other values are
dropped. -/
def formatDict : List (String × PyVal) → Nat → List String
  | [], _ => []
  | (k, v) :: rest, lvl =>
    (match v with
     | .str s =>
       if !(s == "") && !(pyStrip s == "") then
         [indentStr lvl ++ "- **" ++ k ++ "**: " ++ pyStrip s]
       else []
     | .dict _ =>
       let sub := format_content v (lvl + 1)
       if sub == "" then [] else [indentStr lvl ++ "- **" ++ k ++ "**:", sub]
     | .list _ =>
       let sub := format_content v (lvl + 1)
       if sub == "" then [] else [indentStr lvl ++ "- **" ++ k ++ "**:", sub]
     | .other _ _ => []) ++ formatDict rest lvl

/-- The list branch of `_format_content`: recurse on each truthy item at
the same indentation level, keeping non-empty renderings. -/
def formatList : List PyVal → Nat → List String
  | [], _ => []
  | item :: rest, lvl =>
    (if !pyFalsy item then
       let fi := format_content item lvl
       if fi == "" then [] else [fi]
     else []) ++ formatList rest lvl

end

/-- Python `doc.metadata.get(k)` followed by a truthiness test. -/
def truthyMeta (d : Document) (k : String) : Option String :=
  match metaGet d k with
  | some v => if v == "" then none else some v
  | none => none

/-- `app/chatbot.py:385`: the `개요` (overview) part. -/
def partOverview (d : Document) : List String :=
  match truthyMeta d "개요" with
  | some v => ["**개요**: " ++ v]
  | none => []

/-- `app/chatbot.py:386`: the `대상` (target group) part. -/
def partTarget (d : Document) : List String :=
  match truthyMeta d "대상" with
  | some v => ["**지원 대상**: " ++ v]
  | none => []

/-- `app/chatbot.py:387`: the first support-detail part, from the `내용`
key, guarded by truthiness. -/
def partContent1 (d : Document) : List String :=
  match truthyMeta d "내용" with
  | some v => ["**지원 내용**: " ++ v]
  | none => []

/-- `app/chatbot.py:388`: the second support-detail part, from the
`지원내용` key, guarded only by key presence. -/
def partContent2 (d : Document) : List String :=
  match metaGet d "지원내용" with
  | some v => ["**지원 내용**: " ++ v]
  | none => []

/-- `app/chatbot.py:390-395`: the parsed `page_content` rendering, or the
raw text when parsing fails. -/
def partBody (parse : String → Option PyVal) (d : Document) : List String :=
  match parse d.page_content with
  | some pv =>
    let fp := format_content pv 0
    if fp == "" then [] else ["**세부 정보**:\n" ++ fp]
  | none =>
    if d.page_content == "" then [] else ["**내용**: " ++ d.page_content]

/-- `app/chatbot.py:397`: the `방법` (application method) part. -/
def partMethod (d : Document) : List String :=
  match truthyMeta d "방법" with
  | some v => ["**신청 방법**: " ++ v]
  | none => []

/-- `app/chatbot.py:398-400`: the `문의` (contact) part. -/
def partContact (d : Document) : List String :=
  match truthyMeta d "문의" with
  | some v =>
    let ci := format_content (.dict [("문의처", .str v)]) 0
    if ci == "" then [] else [ci]
  | none => []

/-- The per-record part list of `_generate_final_answer`
(`app/chatbot.py:384-400`): overview, target group, the two alternate
support-detail keys (both appended when both fire), the parsed or raw
`page_content`, application method and contact. -/
def buildContentParts (parse : String → Option PyVal) (d : Document) : List String :=
  partOverview d ++ partTarget d ++ partContent1 d ++ partContent2 d ++
    partBody parse d ++ partMethod d ++ partContact d

/-- `full_content_str` of `_generate_final_answer` (`app/chatbot.py:402`). -/
def fullContent (parse : String → Option PyVal) (d : Document) : String :=
  String.intercalate "\n" ((buildContentParts parse d).filter (fun p => !(p == "")))

/-- The navigational markers excluded from grouping (`app/chatbot.py:378`). -/
def navMarkers : List String :=
  ["목차", "안내", "기준", "소개", "연락처"]

/-- Create the group for `name` if absent (`app/chatbot.py:381-382`),
keeping Python-dict insertion order. -/
def ensureGroup (groups : List (String × List String)) (name : String) :
    List (String × List String) :=
  if groups.any (fun g => g.1 == name) then groups else groups ++ [(name, [])]

/-- Add a block to its group's content set (`app/chatbot.py:404`); the set
is modelled as a duplicate-free list (its order is irrelevant because the
rendering sorts it). -/
def addBlock (groups : List (String × List String)) (name block : String) :
    List (String × List String) :=
  groups.map (fun g =>
    if g.1 == name then
      (g.1, if block ∈ g.2 then g.2 else g.2 ++ [block])
    else g)

/-- One iteration of `_generate_final_answer`'s grouping loop
(`app/chatbot.py:376-404`). -/
def groupStep (parse : String → Option PyVal) (groups : List (String × List String))
    (d : Document) : List (String × List String) :=
  match metaGet d "사업명" with
  | none => groups
  | some name =>
    if name == "" then groups
    else if navMarkers.any (fun kw => strHasSub name kw) then groups
    else
      let groups2 := ensureGroup groups name
      let block := fullContent parse d
      if block == "" then groups2 else addBlock groups2 name block

/-- The grouping pass of `_generate_final_answer` over the final batch. -/
def groupDocs (parse : String → Option PyVal) (docs : List Document) :
    List (String × List String) :=
  docs.foldl (groupStep parse) []

/-- Python `sorted` on the block strings (lexicographic by code point). -/
def sortStrings (l : List String) : List String :=
  List.insertionSort (fun a b => a ≤ b) l

/-- One rendered group (`app/chatbot.py:407-409`): header line plus the
group's blocks sorted lexicographically and joined by blank lines. -/
def renderGroup (g : String × List String) : String :=
  "### 서비스명: " ++ g.1 ++ "\n" ++ String.intercalate "\n\n" (sortStrings g.2) ++ "\n"

/-- The assembled context string (`app/chatbot.py:406-411`). -/
def renderContext (groups : List (String × List String)) : String :=
  String.intercalate "\n---\n" (groups.map renderGroup)

/-- Membership in a single-filter `metadata_search`: a document is returned
exactly when it is in the catalog, has non-empty metadata, and its `k`
field is present and starts with `v`. -/
lemma mem_metadata_search_single (docs : List Document) (k v : String) (d : Document) :
    d ∈ metadata_search docs [(k, v)] ↔
      d ∈ docs ∧ d.metadata ≠ [] ∧ ∃ w, metaGet d k = some w ∧ strStarts v w = true := by
  rw [metadata_search, List.mem_filter]
  cases h : metaGet d k with
  | none => simp [h, List.isEmpty_iff]
  | some w => simp [h, List.isEmpty_iff]

/-- The fast-track loop only ever appends to its accumulator. -/
lemma fastTrackLoop_extends (pr : String → String → Nat) (docs : List Document)
    (names : List String) :
    ∀ fuel q acc, ∃ t, (fastTrackLoop pr docs names fuel q acc).1 = acc ++ t := by
  intro fuel
  induction fuel with
  | zero => exact fun q acc => ⟨[], by simp [fastTrackLoop]⟩
  | succ n ih =>
    intro q acc
    cases hq : (q == "") with
    | true => exact ⟨[], by simp [fastTrackLoop, hq]⟩
    | false =>
      cases hd : detect_fast_track_keyword pr names q with
      | none => exact ⟨[], by simp [fastTrackLoop, hq, hd]⟩
      | some name =>
        cases hr : (reduceQuery name q == q) with
        | true =>
          exact ⟨metadata_search docs [("사업명", name)], by simp [fastTrackLoop, hq, hd, hr]⟩
        | false =>
          obtain ⟨t, ht⟩ := ih (reduceQuery name q) (acc ++ metadata_search docs [("사업명", name)])
          refine ⟨metadata_search docs [("사업명", name)] ++ t, ?_⟩
          simp only [fastTrackLoop, hq, hd, hr]
          simp [ht, List.append_assoc]

/-- C6: for every run, the aggregated final batch is the fast-track batch,
then the intelligent-search batch, then the crisis batch, concatenated in
that fixed order with no cross-phase deduplication — a record's occurrence
count in the final batch is the sum of its per-phase counts. -/
theorem final_batch_concat_C6 (pr : String → String → Nat)
    (planner : String → Option PlanResult) (docs : List Document)
    (names : List String) (msg : String) :
    let res := get_intelligent_response pr planner docs names msg
    res.finalDocs = res.fastDocs ++ res.intelligentDocs ++ res.crisisDocs
    ∧ ∀ d : Document,
        res.finalDocs.count d
          = res.fastDocs.count d + res.intelligentDocs.count d + res.crisisDocs.count d := by
  intro res
  have hf : res.finalDocs = res.fastDocs ++ res.intelligentDocs ++ res.crisisDocs := rfl
  refine ⟨hf, fun d => ?_⟩
  rw [hf]
  simp [List.count_append, Nat.add_assoc]

/-- C3: when search-plan generation fails (the planner collaborator
returns no parsed result, so `_generate_search_plan` falls back to its
degenerate dictionary, which has no `search_plan` key), the
intelligent-search batch is empty and the final batch is exactly the
fast-track batch followed by the crisis batch. -/
theorem planner_failure_zero_intelligent_C3 (pr : String → String → Nat)
    (docs : List Document) (names : List String) (msg : String) :
    let res := get_intelligent_response pr (fun _ => none) docs names msg
    res.intelligentDocs = [] ∧ res.finalDocs = res.fastDocs ++ res.crisisDocs := by
  intro res
  have key : ∀ r : String,
      (if r == "" then ([] : List Document)
       else runPlan docs ((generate_search_plan (fun _ => none) r).search_plan.getD []))
        = [] := by
    intro r
    cases hr : (r == "") with
    | true => simp [hr]
    | false => simp [hr, generate_search_plan, degeneratePlan, runPlan]
  have hi : res.intelligentDocs = [] :=
    key (fastTrackLoop pr docs names ((pyStrip msg).toList.length + 1) (pyStrip msg) []).2
  have hf : res.finalDocs = res.fastDocs ++ res.intelligentDocs ++ res.crisisDocs := rfl
  refine ⟨hi, ?_⟩
  rw [hf, hi]
  simp

/-- C4: in a fast-track iteration where the detected name cannot be
literally removed (the reduction returns the query unchanged), the loop
returns immediately with the pre-removal text and with the records already
looked up for that name kept in the batch. -/
theorem fast_track_noop_C4 (pr : String → String → Nat) (docs : List Document)
    (names : List String) (fuel : Nat) (q : String) (acc : List Document)
    (name : String) (hq : q ≠ "")
    (hd : detect_fast_track_keyword pr names q = some name)
    (hr : reduceQuery name q = q) :
    fastTrackLoop pr docs names (fuel + 1) q acc
      = (acc ++ metadata_search docs [("사업명", name)], q) := by
  have hq2 : (q == "") = false := by simp [hq]
  have hr2 : (reduceQuery name q == q) = true := by simp [hr]
  simp [fastTrackLoop, hq2, hd, hr2]

/-- C1 (amended): every detected name triggers one catalog lookup whose
result is exactly the records with non-empty metadata whose entry name
starts with the detected name (case-sensitive prefix match, not equality),
and those records are accumulated into the fast-track batch no matter how
the iteration continues (in particular even when reduction fails). -/
theorem fast_track_lookup_C1 (pr : String → String → Nat) (docs : List Document)
    (names : List String) (fuel : Nat) (q : String) (acc : List Document)
    (name : String) (hq : q ≠ "")
    (hd : detect_fast_track_keyword pr names q = some name) :
    (∀ d, d ∈ metadata_search docs [("사업명", name)] ↔
        d ∈ docs ∧ d.metadata ≠ [] ∧
          ∃ w, metaGet d "사업명" = some w ∧ strStarts name w = true)
    ∧ ∃ tail, (fastTrackLoop pr docs names (fuel + 1) q acc).1
        = acc ++ metadata_search docs [("사업명", name)] ++ tail := by
  refine ⟨fun d => mem_metadata_search_single docs _ _ d, ?_⟩
  have hq2 : (q == "") = false := by simp [hq]
  cases hr : (reduceQuery name q == q) with
  | true => exact ⟨[], by simp [fastTrackLoop, hq2, hd, hr]⟩
  | false =>
    obtain ⟨t, ht⟩ := fastTrackLoop_extends pr docs names fuel (reduceQuery name q)
      (acc ++ metadata_search docs [("사업명", name)])
    refine ⟨t, ?_⟩
    simp only [fastTrackLoop, hq2, hd, hr]
    simp [ht, List.append_assoc]

/-- The predicate `metadata_search` applies under the fixed crisis filter:
non-empty metadata and a `대분류` value starting with the crisis sentinel. -/
def crisisMatchB (d : Document) : Bool :=
  !d.metadata.isEmpty &&
    (match metaGet d "대분류" with
     | none => false
     | some v => strStarts "10장. 기타 위기별 상황별 지원" v)

/-- The crisis augmentation is a plain filter by `crisisMatchB`. -/
lemma crisis_search_eq (docs : List Document) :
    metadata_search docs crisisFilter = docs.filter crisisMatchB := by
  rw [metadata_search, crisisFilter]
  apply List.filter_congr
  intro d _
  cases h : metaGet d "대분류" with
  | none => simp [crisisMatchB, h]
  | some v => simp [crisisMatchB, h]

/-- C10: if the catalog holds a record matching the crisis filter, the
final batch of every turn is non-empty and the turn ends in the
final-answer branch, never in the fallback tiers; conversely a fallback
outcome can only happen when the crisis lookup returned nothing. -/
theorem crisis_nonempty_no_fallback_C10 (pr : String → String → Nat)
    (planner : String → Option PlanResult) (docs : List Document)
    (names : List String) (msg : String) :
    let res := get_intelligent_response pr planner docs names msg
    ((∃ d, d ∈ docs ∧ crisisMatchB d = true) →
        res.finalDocs ≠ [] ∧ res.outcome = Outcome.finalAnswer res.finalDocs)
    ∧ (res.outcome ≠ Outcome.finalAnswer res.finalDocs → res.crisisDocs = []) := by
  intro res
  have hc : res.crisisDocs = docs.filter crisisMatchB := crisis_search_eq docs
  have hf : res.finalDocs = res.fastDocs ++ res.intelligentDocs ++ res.crisisDocs := rfl
  have hout : res.outcome =
      if res.finalDocs.isEmpty then
        if (metadata_search docs fallbackFilter).isEmpty then Outcome.apology
        else Outcome.fallbackOverview (metadata_search docs fallbackFilter)
      else Outcome.finalAnswer res.finalDocs := rfl
  constructor
  · rintro ⟨d, hd, hm⟩
    have hdc : d ∈ res.crisisDocs := by
      rw [hc]
      exact List.mem_filter.mpr ⟨hd, hm⟩
    have hne : res.finalDocs ≠ [] := by
      rw [hf]
      intro h
      rw [List.append_eq_nil, List.append_eq_nil] at h
      rw [h.2] at hdc
      exact List.not_mem_nil d hdc
    have hie : res.finalDocs.isEmpty = false := by
      cases he : res.finalDocs.isEmpty with
      | false => rfl
      | true => exact absurd (List.isEmpty_iff.mp he) hne
    refine ⟨hne, ?_⟩
    rw [hout, hie]
    simp
  · intro hno
    cases he : res.finalDocs.isEmpty with
    | false =>
      exfalso
      apply hno
      rw [hout, he]
      simp
    | true =>
      have h0 : res.finalDocs = [] := List.isEmpty_iff.mp he
      rw [hf, List.append_eq_nil, List.append_eq_nil] at h0
      exact h0.2

/-- C8: whenever some known entry name qualifies under the exact pass
(space-normalized, longer than two characters, contained in the
space-normalized input), the detector returns the first qualifying name in
list order, and that name is a member of the list and qualifies. -/
theorem exact_first_match_C8 (pr : String → String → Nat) (names : List String)
    (msg : String) (h : (names.find? (exactQualify msg)).isSome = true) :
    detect_fast_track_keyword pr names msg = names.find? (exactQualify msg)
    ∧ ∀ n, names.find? (exactQualify msg) = some n →
        n ∈ names ∧ exactQualify msg n = true := by
  constructor
  · obtain ⟨n, hn⟩ := Option.isSome_iff_exists.mp h
    have hne : names.isEmpty = false := by
      cases names with
      | nil => simp [List.find?] at hn
      | cons a l => rfl
    simp [detect_fast_track_keyword, hne, hn]
  · intro n hn
    exact ⟨List.mem_of_find?_eq_some hn, List.find?_some hn⟩

/-- C5 (amended): for a plan step with non-empty Stage-A results, a Stage-A
record survives to the intelligent batch exactly when the step's
`base_condition` is empty, or the record's space-stripped `대상` field —
read as the empty string when missing — contains some space-stripped
`base_condition` token as a substring. -/
theorem audience_filter_iff_C5 (docs : List Document) (step : PlanStep)
    (h : stageADocs docs step ≠ []) :
    ∀ d, d ∈ runStep docs step ↔
      d ∈ stageADocs docs step ∧
        (step.base_condition = [] ∨
          ∃ bc ∈ step.base_condition,
            strHasSub (stripSpaces ((metaGet d "대상").getD "")) (stripSpaces bc) = true) := by
  intro d
  have hm : step.middle_categories.isEmpty = false := by
    cases hmc : step.middle_categories with
    | nil =>
      exfalso
      apply h
      rw [stageADocs, hmc]
      rfl
    | cons a l => rfl
  have hA : (stageADocs docs step).isEmpty = false := by
    cases he : (stageADocs docs step).isEmpty with
    | false => rfl
    | true => exact absurd (List.isEmpty_iff.mp he) h
  rw [runStep, hm]
  simp only [Bool.false_eq_true, if_false, hA]
  cases hb : step.base_condition with
  | nil => simp [hb]
  | cons b bs =>
    rw [if_neg (by simp)]
    rw [List.mem_filter]
    simp [audienceKeep, List.any_eq_true, hb]

/-- C2 (amended): when a record carries both alternate support-detail keys
and the earlier-checked key's value is truthy, the rendered part list
contains both support-detail lines adjacently — the earlier-checked key's
value first, then the later-checked key's value; neither overwrites the
other. -/
theorem support_detail_both_keys_C2 (parse : String → Option PyVal) (d : Document)
    (v1 v2 : String) (h1 : metaGet d "내용" = some v1) (h2 : v1 ≠ "")
    (h3 : metaGet d "지원내용" = some v2) :
    List.IsInfix ["**지원 내용**: " ++ v1, "**지원 내용**: " ++ v2]
      (buildContentParts parse d) := by
  have e1 : partContent1 d = ["**지원 내용**: " ++ v1] := by
    simp [partContent1, truthyMeta, h1, h2]
  have e2 : partContent2 d = ["**지원 내용**: " ++ v2] := by
    simp [partContent2, h3]
  refine ⟨partOverview d ++ partTarget d,
    partBody parse d ++ partMethod d ++ partContact d, ?_⟩
  rw [buildContentParts, e1, e2]
  simp [List.append_assoc]

/-- Appending a fresh block to a group's content set keeps it
duplicate-free. -/
lemma addBlock_nodup (groups : List (String × List String)) (name block : String)
    (h : ∀ g ∈ groups, g.2.Nodup) :
    ∀ g ∈ addBlock groups name block, g.2.Nodup := by
  intro g hg
  rw [addBlock] at hg
  obtain ⟨g0, hg0, rfl⟩ := List.mem_map.mp hg
  cases hn : (g0.1 == name) with
  | false =>
    simp only [hn, Bool.false_eq_true, if_false]
    exact h g0 hg0
  | true =>
    simp only [hn, if_true]
    by_cases hmem : block ∈ g0.2
    · simp only [hmem, if_true]
      exact h g0 hg0
    · simp only [hmem, if_false]
      simp [List.nodup_append, h g0 hg0, hmem]

/-- Creating an empty group keeps every group's content set
duplicate-free. -/
lemma ensureGroup_nodup (groups : List (String × List String)) (name : String)
    (h : ∀ g ∈ groups, g.2.Nodup) :
    ∀ g ∈ ensureGroup groups name, g.2.Nodup := by
  intro g hg
  rw [ensureGroup] at hg
  cases hn : groups.any (fun g => g.1 == name) with
  | true =>
    rw [hn] at hg
    exact h g hg
  | false =>
    rw [hn] at hg
    simp only [Bool.false_eq_true, if_false] at hg
    rcases List.mem_append.mp hg with hin | hnew
    · exact h g hin
    · rw [List.mem_singleton.mp hnew]
      exact List.nodup_nil

/-- One grouping iteration keeps every group's content set
duplicate-free. -/
lemma groupStep_nodup (parse : String → Option PyVal)
    (groups : List (String × List String)) (d : Document)
    (h : ∀ g ∈ groups, g.2.Nodup) :
    ∀ g ∈ groupStep parse groups d, g.2.Nodup := by
  intro g hg
  rw [groupStep] at hg
  cases hname : metaGet d "사업명" with
  | none =>
    simp only [hname] at hg
    exact h g hg
  | some name =>
    simp only [hname] at hg
    by_cases he : (name == "") = true
    · rw [if_pos he] at hg
      exact h g hg
    · rw [if_neg he] at hg
      by_cases hnav : (navMarkers.any (fun kw => strHasSub name kw)) = true
      · rw [if_pos hnav] at hg
        exact h g hg
      · rw [if_neg hnav] at hg
        by_cases hblock : (fullContent parse d == "") = true
        · simp only [hblock, if_true] at hg
          exact ensureGroup_nodup groups name h g hg
        · simp only [hblock, Bool.false_eq_true, if_false] at hg
          exact addBlock_nodup (ensureGroup groups name) name (fullContent parse d)
            (ensureGroup_nodup groups name h) g hg

/-- The whole grouping fold keeps every group's content set
duplicate-free. -/
lemma groupFold_nodup (parse : String → Option PyVal) :
    ∀ (docs : List Document) (groups : List (String × List String)),
      (∀ g ∈ groups, g.2.Nodup) →
      ∀ g ∈ docs.foldl (groupStep parse) groups, g.2.Nodup := by
  intro docs
  induction docs with
  | nil => intro groups h g hg; exact h g hg
  | cons d rest ih =>
    intro groups h g hg
    rw [List.foldl_cons] at hg
    exact ih (groupStep parse groups d) (groupStep_nodup parse groups d h) g hg

/-- C9: every group assembled by the context assembler has a
duplicate-free block set (byte-identical renderings collapse to one
instance), and the rendered group joins a sorted permutation of those
distinct blocks — lexicographic order, not retrieval order. -/
theorem group_blocks_C9 (parse : String → Option PyVal) (docs : List Document) :
    ∀ g ∈ groupDocs parse docs,
      g.2.Nodup ∧
        ∃ bs, List.Perm bs g.2 ∧ bs.Sorted (fun a b => a ≤ b) ∧
          renderGroup g
            = "### 서비스명: " ++ g.1 ++ "\n" ++ String.intercalate "\n\n" bs ++ "\n" := by
  intro g hg
  refine ⟨groupFold_nodup parse docs [] (by simp) g hg,
    sortStrings g.2, ?_, ?_, rfl⟩
  · exact List.perm_insertionSort _ _
  · exact List.sorted_insertionSort _ _

/-- First-occurrence filtering with an explicit set of already-seen keys;
intermediate notion relating the dictionary fold to the specification. -/
def firstOccAux (seen : List (String × Option String)) : List Document → List Document
  | [] => []
  | d :: rest =>
    if docKey d ∈ seen then firstOccAux seen rest
    else d :: firstOccAux (seen ++ [docKey d]) rest

/-- The dictionary fold of `_merge_and_deduplicate` computes the seen-key
first-occurrence filtering of its input. -/
lemma foldl_pyDictInsert_eq (l : List Document) :
    ∀ m, ((l.foldl pyDictInsert m).map (fun kv => kv.2))
      = m.map (fun kv => kv.2) ++ firstOccAux (m.map (fun kv => kv.1)) l := by
  induction l with
  | nil => intro m; simp [firstOccAux]
  | cons d rest ih =>
    intro m
    rw [List.foldl_cons]
    cases h : m.any (fun kv => decide (kv.1 = docKey d)) with
    | true =>
      have hseen : docKey d ∈ m.map (fun kv => kv.1) := by
        obtain ⟨kv, hkv, he⟩ := List.any_eq_true.mp h
        have hq : kv.1 = docKey d := of_decide_eq_true he
        exact hq ▸ List.mem_map_of_mem (fun kv => kv.1) hkv
      rw [show pyDictInsert m d = m from by simp [pyDictInsert, h]]
      rw [ih m]
      simp only [firstOccAux, if_pos hseen]
    | false =>
      have hseen : docKey d ∉ m.map (fun kv => kv.1) := by
        intro hmem
        obtain ⟨kv, hkv, he⟩ := List.mem_map.mp hmem
        have : m.any (fun kv => decide (kv.1 = docKey d)) = true :=
          List.any_eq_true.mpr ⟨kv, hkv, decide_eq_true he⟩
        rw [h] at this
        exact Bool.false_ne_true this
      rw [show pyDictInsert m d = m ++ [(docKey d, d)] from by simp [pyDictInsert, h]]
      rw [ih (m ++ [(docKey d, d)])]
      simp only [firstOccAux, if_neg hseen, List.map_append]
      simp [List.append_assoc]

/-- Unfolding equation of the specification on a non-empty list. -/
lemma dedupSpec_cons (d : Document) (rest : List Document) :
    dedupSpecFirstOccurrence (d :: rest)
      = d :: dedupSpecFirstOccurrence (rest.filter (fun x => decide (docKey x ≠ docKey d))) := by
  rw [dedupSpecFirstOccurrence.eq_def]

/-- Seen-key first-occurrence filtering agrees with the claim's
specification on the input purged of already-seen keys. -/
lemma firstOccAux_eq_spec (l : List Document) :
    ∀ seen, firstOccAux seen l
      = dedupSpecFirstOccurrence (l.filter (fun x => decide (docKey x ∉ seen))) := by
  induction l with
  | nil => intro seen; simp [firstOccAux, dedupSpecFirstOccurrence]
  | cons d rest ih =>
    intro seen
    by_cases hs : docKey d ∈ seen
    · simp only [firstOccAux, if_pos hs]
      rw [ih seen, List.filter_cons]
      simp [hs]
    · simp only [firstOccAux, if_neg hs]
      have hdec : decide (docKey d ∉ seen) = true := decide_eq_true hs
      rw [List.filter_cons]
      simp only [hdec, if_true]
      rw [dedupSpec_cons]
      rw [ih (seen ++ [docKey d])]
      congr 1
      rw [List.filter_filter]
      congr 1
      apply List.filter_congr
      intro x _
      by_cases h1 : docKey x = docKey d <;> by_cases h2 : docKey x ∈ seen <;>
        simp [h1, h2]

/-- C7: the standalone deduplication utility returns, for any two ordered
record sequences, the first occurrence of each distinct
`(body, entryName)` key in their concatenation, preserving first-seen
order — so a record is dropped exactly when an earlier record of the
concatenation carries the same key. -/
theorem merge_dedup_spec_C7 (docs1 docs2 : List Document) :
    merge_and_deduplicate docs1 docs2 = dedupSpecFirstOccurrence (docs1 ++ docs2) := by
  rw [merge_and_deduplicate, foldl_pyDictInsert_eq]
  rw [firstOccAux_eq_spec]
  simp

/-- A degenerate fuzzy scorer (score 0 everywhere); the exact pass never
consults it. -/
def prZero : String → String → Nat := fun _ _ => 0

/-- A saturating fuzzy scorer (score 100 everywhere), used to exercise the
fuzzy-only detection path. -/
def prHigh : String → String → Nat := fun _ _ => 100

/-- A `json.loads` collaborator that always fails to parse. -/
def parseNone : String → Option PyVal := fun _ => none

/-- Catalog record whose entry name strictly extends the detected name. -/
def C1doc : Document := { page_content := "", metadata := [("사업명", "가나다라")] }

/-- C1 counterexample: the fast track detects the name `가나다`, yet its
lookup returns the record whose entry name is `가나다라` — a strict prefix
extension, not an exact equal — so the lookup is not an exact-equality
match. -/
theorem fast_track_lookup_C1_counterexample :
    detect_fast_track_keyword prZero ["가나다"] "가나다" = some "가나다"
    ∧ (fastTrackLoop prZero [C1doc] ["가나다"] 4 "가나다" []).1 = [C1doc]
    ∧ metaGet C1doc "사업명" = some "가나다라"
    ∧ ("가나다라" : String) ≠ "가나다" := by
  refine ⟨by decide, by decide, by decide, by decide⟩

/-- C1 witness: the amended prefix-match characterization and the
accumulation guarantee, instantiated on the concrete catalog. -/
theorem fast_track_lookup_C1_witness :
    (C1doc ∈ metadata_search [C1doc] [("사업명", "가나다")] ↔
        C1doc ∈ [C1doc] ∧ C1doc.metadata ≠ [] ∧
          ∃ w, metaGet C1doc "사업명" = some w ∧ strStarts "가나다" w = true)
    ∧ ∃ tail, (fastTrackLoop prZero [C1doc] ["가나다"] (3 + 1) "가나다" []).1
        = [] ++ metadata_search [C1doc] [("사업명", "가나다")] ++ tail :=
  ⟨(fast_track_lookup_C1 prZero [C1doc] ["가나다"] 3 "가나다" [] "가나다"
      (by decide) (by decide)).1 C1doc,
   (fast_track_lookup_C1 prZero [C1doc] ["가나다"] 3 "가나다" [] "가나다"
      (by decide) (by decide)).2⟩

/-- Catalog record matched by the fuzzy-only detection of the C4 witness. -/
def C4doc : Document := { page_content := "", metadata := [("사업명", "가나다라")] }

/-- C4 witness: with a fuzzy-only detection (`가나다라` detected inside
`가나마`, which does not literally contain it), reduction is a no-op and
the loop stops at once, keeping the looked-up records. -/
theorem fast_track_noop_C4_witness :
    fastTrackLoop prHigh [C4doc] ["가나다라"] (0 + 1) "가나마" []
      = ([] ++ metadata_search [C4doc] [("사업명", "가나다라")], "가나마")
    ∧ metadata_search [C4doc] [("사업명", "가나다라")] = [C4doc] :=
  ⟨fast_track_noop_C4 prHigh [C4doc] ["가나다라"] 0 "가나마" [] "가나다라"
      (by decide) (by decide) (by decide),
   by decide⟩

/-- Record with a matching middle category but no `대상` field. -/
def C5doc : Document := { page_content := "", metadata := [("중분류", "가")] }

/-- Plan step whose only `base_condition` token is a single space. -/
def C5step : PlanStep :=
  { base_condition := [" "], keywords := [], middle_categories := ["가"] }

/-- C5 counterexample: a record with no `targetGroup` field survives the
audience filter even though `base_condition` is non-empty, because the
space-only token strips to the empty string, which is a substring of the
empty target text. -/
theorem audience_filter_C5_counterexample :
    runStep [C5doc] C5step = [C5doc]
    ∧ metaGet C5doc "대상" = none
    ∧ C5step.base_condition ≠ [] := by
  refine ⟨by decide, by decide, by decide⟩

/-- C5 witness: the amended audience-filter characterization instantiated
on the concrete step and record. -/
theorem audience_filter_iff_C5_witness :
    C5doc ∈ runStep [C5doc] C5step ↔
      C5doc ∈ stageADocs [C5doc] C5step ∧
        (C5step.base_condition = [] ∨
          ∃ bc ∈ C5step.base_condition,
            strHasSub (stripSpaces ((metaGet C5doc "대상").getD ""))
              (stripSpaces bc) = true) :=
  audience_filter_iff_C5 [C5doc] C5step (by decide) C5doc

/-- Record carrying both alternate support-detail keys. -/
def C2doc : Document := { page_content := "", metadata := [("내용", "A"), ("지원내용", "B")] }

/-- C2 counterexample: with both alternate support-detail keys present,
the rendered part list carries two support-detail lines — the
earlier-checked key's value is not overwritten. -/
theorem support_detail_overwrite_C2_counterexample :
    buildContentParts parseNone C2doc = ["**지원 내용**: A", "**지원 내용**: B"]
    ∧ (buildContentParts parseNone C2doc).countP
        (fun p => strStarts "**지원 내용**: " p) = 2
    ∧ ("A" : String) ≠ "B" := by
  refine ⟨by decide, by decide, by decide⟩

/-- C2 witness: the amended adjacent-lines statement instantiated on the
concrete record. -/
theorem support_detail_both_keys_C2_witness :
    List.IsInfix ["**지원 내용**: " ++ "A", "**지원 내용**: " ++ "B"]
      (buildContentParts parseNone C2doc) :=
  support_detail_both_keys_C2 parseNone C2doc "A" "B" (by decide) (by decide) (by decide)

/-- C8 witness: both `가나다` and the longer, fully matching `가나다라마`
qualify for the spaced input, and the detector returns the first in list
order. -/
theorem exact_first_match_C8_witness :
    detect_fast_track_keyword prZero ["가나다", "가나다라마"] "가 나 다 라 마"
      = some "가나다" :=
  ((exact_first_match_C8 prZero ["가나다", "가나다라마"] "가 나 다 라 마"
      (by decide)).1).trans (by decide)

/-- Record rendered twice into the same group by the C9 witness. -/
def C9doc : Document := { page_content := "", metadata := [("사업명", "가나"), ("개요", "A")] }

/-- C9 witness: two identical records collapse to a single block inside
their group; the theorem then yields the sorted-permutation rendering. -/
theorem group_blocks_C9_witness :
    groupDocs parseNone [C9doc, C9doc] = [("가나", ["**개요**: A"])]
    ∧ ((["**개요**: A"] : List String).Nodup
        ∧ ∃ bs, List.Perm bs ["**개요**: A"] ∧ bs.Sorted (fun a b => a ≤ b) ∧
            renderGroup ("가나", ["**개요**: A"])
              = "### 서비스명: " ++ "가나" ++ "\n"
                ++ String.intercalate "\n\n" bs ++ "\n") :=
  ⟨by decide,
   group_blocks_C9 parseNone [C9doc, C9doc] ("가나", ["**개요**: A"]) (by decide)⟩

/-- Record carrying the crisis-chapter major category. -/
def C10doc : Document :=
  { page_content := "", metadata := [("대분류", "10장. 기타 위기별 상황별 지원")] }

/-- C10 witness: one crisis record in the catalog forces a non-empty final
batch and the final-answer outcome for a concrete turn. -/
theorem crisis_nonempty_no_fallback_C10_witness :
    (get_intelligent_response prZero (fun _ => none) [C10doc] [] "가").finalDocs ≠ []
    ∧ (get_intelligent_response prZero (fun _ => none) [C10doc] [] "가").outcome
        = Outcome.finalAnswer
            (get_intelligent_response prZero (fun _ => none) [C10doc] [] "가").finalDocs :=
  (crisis_nonempty_no_fallback_C10 prZero (fun _ => none) [C10doc] [] "가").1
    ⟨C10doc, by decide, by decide⟩
